import Mathlib

/-!
Verification development for the Master Call Asset Catalog & Delivery Service.

The definitions below are a shallow embedding of the repository's Python
sources, translated function by function:

* `scripts/generate_call_index.py` — the catalog builder (`generate_index`),
  including the semantics of the standard-library pieces it leans on:
  `pathlib.Path.glob` (scandir order, no sorting, a missing or unreadable
  directory yields no entries, `*.json` matches exactly the names ending in
  `.json`), `pathlib.PurePath.stem`, `json.load` (a recursive-descent parser
  whose diagnostics carry only line/column/offset computed from the document
  text — the filename is not available to it), and `dict` insertion-order
  semantics.  File-system effects are reified as an `FsOp` trace: the script
  opens `index.json` for writing directly (truncating) and writes the
  serialized catalog; there is no temporary file and no rename.
* `serve_production.py` — the production handler: `end_headers` appends the
  fixed security/CORS header block after whatever headers the branch already
  buffered, `guess_type` tuple-unpacks the single string returned by
  `SimpleHTTPRequestHandler.guess_type` (a `ValueError` on every call for
  every real MIME string), `do_GET` dispatches API routes / the root
  redirect / static serving, and `main` binds the listening socket before
  any TLS set-up; `create_ssl_context` generates a self-signed pair when
  either the certificate or the key is falsy.
* `scripts/serve_dev.py` — the development handler: its `end_headers`
  unconditionally appends `Content-Type: application/wasm` to every
  response.

Abstractions, stated once here: request bodies, `Content-Length`/`Server`/
`Date` headers and byte-level JSON serialization are elided (no claim
touches them); directory targets of static requests (index pages, listing
pages, trailing-slash redirects) are outside the modelled request space —
every one of those branches also funnels through `end_headers`; JSON numbers
are modelled as integers (the catalog fields in scope are integers);
`\uXXXX` string escapes are not modelled; `translate_path` is modelled as
the identity onto the served-directory key space after the query/fragment
split.  `staysInRoot` is the spec-side resolution predicate used to state
the path-safety claim.
-/

/-- One JSON value, as produced by `json.load`. -/
inductive Jv where
  | null
  | bool (b : Bool)
  | num (n : Int)
  | str (s : String)
  | arr (xs : List Jv)
  | obj (kvs : List (String × Jv))

/-- Index of the last dot in a list of characters, if any. -/
def rfindDot : List Char → Option Nat
  | [] => none
  | c :: cs =>
    match rfindDot cs with
    | some i => some (i + 1)
    | none => if c = '.' then some 0 else none

/-- Embeds `pathlib.PurePath.stem`: the file name with its suffix removed,
where the suffix is `name[i:]` for `i` the last dot index when
`0 < i < len(name) - 1`, and empty otherwise. -/
def stem (name : String) : String :=
  let cs := name.data
  match rfindDot cs with
  | some i => if 0 < i ∧ i < cs.length - 1 then String.mk (cs.take i) else name
  | none => name

/-- Embeds Python `str.endswith`, by character-list suffix test (the
kernel-opaque byte-position `String.endsWith` is avoided). -/
def pyEndsWith (s suffix : String) : Bool :=
  suffix.data.isSuffixOf s.data

/-- Embeds Python `str.startswith`, by character-list prefix test. -/
def pyStartsWith (s pre : String) : Bool :=
  pre.data.isPrefixOf s.data

/-- Embeds the `audio` entry of the `files` map built by `generate_index`:
the f-string `../master_calls/{base_name}.wav`. -/
def audioFilePath (base_name : String) : String :=
  "../master_calls/" ++ base_name ++ ".wav"

/-- Embeds the `mfc` entry of the `files` map: `mfc/{base_name}.mfc`. -/
def mfcFilePath (base_name : String) : String :=
  "mfc/" ++ base_name ++ ".mfc"

/-- Embeds the `waveform` entry of the `files` map:
`waveforms/{base_name}.json`. -/
def waveformFilePath (base_name : String) : String :=
  "waveforms/" ++ base_name ++ ".json"

/-- Embeds the `metadata` entry of the `files` map:
`metadata/{base_name}.json`. -/
def metadataFilePath (base_name : String) : String :=
  "metadata/" ++ base_name ++ ".json"

/-- Embeds the `files` map of a `call_entry` in `generate_index`. -/
def callFiles (base_name : String) : List (String × String) :=
  [("audio", audioFilePath base_name),
   ("mfc", mfcFilePath base_name),
   ("waveform", waveformFilePath base_name),
   ("metadata", metadataFilePath base_name)]

/-- Spec-side helper: split a character list at every slash. -/
def splitSlash : List Char → List (List Char)
  | [] => [[]]
  | c :: cs =>
    match splitSlash cs with
    | [] => [[]]
    | g :: gs => if c = '/' then [] :: g :: gs else (c :: g) :: gs

/-- Spec-side helper: walk the segments of a relative path keeping the depth
below the root; `false` when a `..` segment pops above the root. -/
def resolveSegs : Nat → List (List Char) → Bool
  | _, [] => true
  | d, g :: gs =>
    if g = ([] : List Char) then resolveSegs d gs
    else if g = ['.'] then resolveSegs d gs
    else if g = ['.', '.'] then
      match d with
      | 0 => false
      | Nat.succ d2 => resolveSegs d2 gs
    else resolveSegs (d + 1) gs

/-- Spec-side predicate: a relative path resolves to a location inside the
directory it is interpreted against (the asset root).  Absolute paths and
paths whose `..` segments climb above the root do not. -/
def staysInRoot (p : String) : Bool :=
  if p.data.head? = some '/' then false
  else resolveSegs 0 (splitSlash p.data)

/-- Opening-brace character, kept out of string literals. -/
def obChar : Char := Char.ofNat 123

/-- Closing-brace character, kept out of string literals. -/
def cbChar : Char := Char.ofNat 125

/-- Double-quote character. -/
def quoteChar : Char := '"'

/-- Parser diagnostic: its kind together with the length of the input still
unread at the offending position (the offset is recovered from it). -/
structure PErr where
  kind : String
  rem : Nat

/-- Embeds the JSON whitespace skip (space, tab, newline, carriage return). -/
def skipWs (cs : List Char) : List Char :=
  cs.dropWhile (fun c => (c == ' ') || (c == '\t') || (c == '\n') || (c == '\r'))

/-- Digits to a natural number, most significant first. -/
def digitsToNat (ds : List Char) : Nat :=
  ds.foldl (fun acc c => 10 * acc + (c.toNat - 48)) 0

/-- Embeds JSON number scanning, restricted to the integer grammar actually
used by the catalog fields (no fraction or exponent is modelled). -/
def parseNum (cs : List Char) : Except PErr (Jv × List Char) :=
  match cs with
  | '-' :: rest =>
    let ds := rest.takeWhile Char.isDigit
    if ds = ([] : List Char) then Except.error ⟨"Expecting value", cs.length⟩
    else Except.ok (Jv.num (-(Int.ofNat (digitsToNat ds))), rest.drop ds.length)
  | _ =>
    let ds := cs.takeWhile Char.isDigit
    if ds = ([] : List Char) then Except.error ⟨"Expecting value", cs.length⟩
    else Except.ok (Jv.num (Int.ofNat (digitsToNat ds)), cs.drop ds.length)

/-- Embeds JSON string scanning after the opening quote; handles the short
escapes (`\uXXXX` is not modelled). -/
def parseStr : Nat → List Char → List Char → Except PErr (String × List Char)
  | 0, cs, _ => Except.error ⟨"Unterminated string starting at", cs.length⟩
  | Nat.succ fuel, cs, acc =>
    match cs with
    | [] => Except.error ⟨"Unterminated string starting at", 0⟩
    | c :: rest =>
      if c = quoteChar then Except.ok (String.mk acc.reverse, rest)
      else if c = '\\' then
        match rest with
        | [] => Except.error ⟨"Unterminated string starting at", 0⟩
        | e :: rest2 =>
          if e = quoteChar then parseStr fuel rest2 (quoteChar :: acc)
          else if e = '\\' then parseStr fuel rest2 ('\\' :: acc)
          else if e = '/' then parseStr fuel rest2 ('/' :: acc)
          else if e = 'n' then parseStr fuel rest2 ('\n' :: acc)
          else if e = 't' then parseStr fuel rest2 ('\t' :: acc)
          else if e = 'r' then parseStr fuel rest2 ('\r' :: acc)
          else if e = 'b' then parseStr fuel rest2 (Char.ofNat 8 :: acc)
          else if e = 'f' then parseStr fuel rest2 (Char.ofNat 12 :: acc)
          else Except.error ⟨"Invalid \x5cescape", (e :: rest2).length⟩
      else parseStr fuel rest (c :: acc)

/-- Embeds CPython `dict` insertion on JSON object construction: an existing
key keeps its position and its value is replaced, a new key is appended. -/
def objInsert : List (String × Jv) → String → Jv → List (String × Jv)
  | [], k, v => [(k, v)]
  | (k0, v0) :: rest, k, v =>
    if k0 = k then (k0, v) :: rest else (k0, v0) :: objInsert rest k v

mutual

/-- Embeds `json.scanner` value dispatch: after skipping whitespace, scan one
JSON value, reporting `Expecting value` at the offending offset otherwise. -/
def parseValue : Nat → List Char → Except PErr (Jv × List Char)
  | 0, cs => Except.error ⟨"Expecting value", cs.length⟩
  | Nat.succ fuel, cs =>
    match skipWs cs with
    | [] => Except.error ⟨"Expecting value", 0⟩
    | c :: rest =>
      if c = quoteChar then
        match parseStr rest.length rest [] with
        | Except.error e => Except.error e
        | Except.ok (s, rem) => Except.ok (Jv.str s, rem)
      else if c = obChar then parseObjBody fuel rest
      else if c = '[' then parseArrBody fuel rest
      else if c = 't' then
        match rest with
        | 'r' :: 'u' :: 'e' :: rem => Except.ok (Jv.bool true, rem)
        | _ => Except.error ⟨"Expecting value", (c :: rest).length⟩
      else if c = 'f' then
        match rest with
        | 'a' :: 'l' :: 's' :: 'e' :: rem => Except.ok (Jv.bool false, rem)
        | _ => Except.error ⟨"Expecting value", (c :: rest).length⟩
      else if c = 'n' then
        match rest with
        | 'u' :: 'l' :: 'l' :: rem => Except.ok (Jv.null, rem)
        | _ => Except.error ⟨"Expecting value", (c :: rest).length⟩
      else if c = '-' || c.isDigit then parseNum (c :: rest)
      else Except.error ⟨"Expecting value", (c :: rest).length⟩

/-- Embeds `json.decoder.JSONObject` directly after the opening brace: an
immediate closing brace yields the empty object, otherwise a quoted property
name is required. -/
def parseObjBody : Nat → List Char → Except PErr (Jv × List Char)
  | 0, cs => Except.error ⟨"Expecting property name enclosed in double quotes", cs.length⟩
  | Nat.succ fuel, cs =>
    match skipWs cs with
    | [] => Except.error ⟨"Expecting property name enclosed in double quotes", 0⟩
    | c :: rest =>
      if c = cbChar then Except.ok (Jv.obj [], rest)
      else if c = quoteChar then parseObjMembers fuel (c :: rest) []
      else Except.error ⟨"Expecting property name enclosed in double quotes", (c :: rest).length⟩

/-- Embeds the `JSONObject` member loop, positioned at the quote opening a
property name.  The delimiter diagnostics quote the delimiter character in
CPython; the quotes are carried via character escapes here. -/
def parseObjMembers : Nat → List Char → List (String × Jv) → Except PErr (Jv × List Char)
  | 0, cs, _ => Except.error ⟨"Expecting property name enclosed in double quotes", cs.length⟩
  | Nat.succ fuel, cs, acc =>
    match cs with
    | [] => Except.error ⟨"Expecting property name enclosed in double quotes", 0⟩
    | c :: rest =>
      if c = quoteChar then
        match parseStr rest.length rest [] with
        | Except.error e => Except.error e
        | Except.ok (k, rem1) =>
          match skipWs rem1 with
          | ':' :: rem2 =>
            match parseValue fuel rem2 with
            | Except.error e => Except.error e
            | Except.ok (v, rem3) =>
              let acc2 := objInsert acc k v
              match skipWs rem3 with
              | [] => Except.error ⟨"Expecting \x27,\x27 delimiter", 0⟩
              | c2 :: rem4 =>
                if c2 = cbChar then Except.ok (Jv.obj acc2, rem4)
                else if c2 = ',' then
                  match skipWs rem4 with
                  | [] => Except.error ⟨"Expecting property name enclosed in double quotes", 0⟩
                  | c3 :: rem5 =>
                    if c3 = quoteChar then parseObjMembers fuel (c3 :: rem5) acc2
                    else Except.error ⟨"Expecting property name enclosed in double quotes", (c3 :: rem5).length⟩
                else Except.error ⟨"Expecting \x27,\x27 delimiter", (c2 :: rem4).length⟩
          | other => Except.error ⟨"Expecting \x27:\x27 delimiter", other.length⟩
      else Except.error ⟨"Expecting property name enclosed in double quotes", (c :: rest).length⟩

/-- Embeds `JSONArray` directly after the opening bracket. -/
def parseArrBody : Nat → List Char → Except PErr (Jv × List Char)
  | 0, cs => Except.error ⟨"Expecting value", cs.length⟩
  | Nat.succ fuel, cs =>
    match skipWs cs with
    | [] => Except.error ⟨"Expecting value", 0⟩
    | c :: rest =>
      if c = ']' then Except.ok (Jv.arr [], rest)
      else parseArrMembers fuel (c :: rest) []

/-- Embeds the `JSONArray` element loop, positioned at the start of an
element. -/
def parseArrMembers : Nat → List Char → List Jv → Except PErr (Jv × List Char)
  | 0, cs, _ => Except.error ⟨"Expecting value", cs.length⟩
  | Nat.succ fuel, cs, acc =>
    match parseValue fuel cs with
    | Except.error e => Except.error e
    | Except.ok (v, rem1) =>
      let acc2 := acc ++ [v]
      match skipWs rem1 with
      | [] => Except.error ⟨"Expecting \x27,\x27 delimiter", 0⟩
      | c2 :: rem2 =>
        if c2 = ']' then Except.ok (Jv.arr acc2, rem2)
        else if c2 = ',' then parseArrMembers fuel rem2 acc2
        else Except.error ⟨"Expecting \x27,\x27 delimiter", (c2 :: rem2).length⟩

end

/-- Formats a parser diagnostic exactly the way `json.JSONDecodeError` does:
`kind: line L column C (char N)`, with the position derived from the
document text alone — the filename is not part of the message. -/
def fmtErr (doc : List Char) (e : PErr) : String :=
  let pos := doc.length - e.rem
  let pre := doc.take pos
  let line := 1 + pre.count '\n'
  let col := (pre.reverse.takeWhile (fun c => !(c == '\n'))).length + 1
  e.kind ++ ": line " ++ toString line ++ " column " ++ toString col ++
    " (char " ++ toString pos ++ ")"

/-- Embeds `json.load` on the file contents: parse one value, then require
only trailing whitespace. -/
def json_loads (s : String) : Except String Jv :=
  let cs := s.data
  match parseValue (3 * cs.length + 16) cs with
  | Except.error e => Except.error (fmtErr cs e)
  | Except.ok (v, rest) =>
    match skipWs rest with
    | [] => Except.ok v
    | c :: r2 => Except.error (fmtErr cs ⟨"Extra data", (c :: r2).length⟩)

/-- Embeds `metadata.get(key, default)` on a parsed JSON object. -/
def dictGet (kvs : List (String × Jv)) (k : String) (dflt : Jv) : Jv :=
  (kvs.lookup k).getD dflt

/-- One element of the catalog's `calls` sequence, as built by
`generate_index`; the field values are whatever JSON value the metadata
record carried (Python keeps them dynamically typed). -/
structure CallEntry where
  id : String
  species : Jv
  callType : Jv
  season : Jv
  difficulty : Jv
  duration : Jv
  files : List (String × String)

/-- Embeds the `call_entry` dictionary construction in `generate_index`. -/
def build_call_entry (base_name : String) (metadata : List (String × Jv)) : CallEntry :=
  { id := base_name
  , species := dictGet metadata ("species") (Jv.str ("unknown"))
  , callType := dictGet metadata ("callType") (Jv.str ("unknown"))
  , season := dictGet metadata ("season") (Jv.str ("all"))
  , difficulty := dictGet metadata ("difficulty") (Jv.num 1)
  , duration := dictGet metadata ("duration") (Jv.num 0)
  , files := callFiles base_name }

/-- Equality test on the scalar JSON values that can serve as `dict` keys;
containers are unhashable in Python and never reach a comparison. -/
def jvScalarBeq : Jv → Jv → Bool
  | Jv.null, Jv.null => true
  | Jv.bool a, Jv.bool b => a == b
  | Jv.num a, Jv.num b => a == b
  | Jv.str a, Jv.str b => a == b
  | _, _ => false

/-- True when the value can be used as a Python `dict` key (is hashable). -/
def jvHashable : Jv → Bool
  | Jv.arr _ => false
  | Jv.obj _ => false
  | _ => true

/-- Embeds the species-grouping step: create the bucket on first sight (at
the end, preserving `dict` insertion order), then append the id to it. -/
def speciesAdd : List (Jv × List String) → Jv → String → List (Jv × List String)
  | [], sp, i => [(sp, [i])]
  | (k, xs) :: rest, sp, i =>
    if jvScalarBeq k sp then (k, xs ++ [i]) :: rest
    else (k, xs) :: speciesAdd rest sp i

/-- The consolidated catalog document, mirroring the `index` dictionary. -/
structure Catalog where
  version : String
  generated : String
  species : List (Jv × List String)
  calls : List CallEntry

/-- File-system effects the builder can perform.  `renameFile` is included
so that the absence of any rename in the builder's trace is expressible; the
source never performs one. -/
inductive FsOp where
  | openTrunc (path : String)
  | writeIndex (c : Catalog)
  | renameFile (src : String) (dst : String)

/-- Input of one builder run: the scandir-order listing of the metadata
directory with each file's contents (`none` when the directory is missing or
unreadable — `pathlib` yields no entries in either case), whether the
processed directory admits creating `index.json`, and the build wall-clock
timestamp `datetime.now().isoformat()`. -/
structure BuildInput where
  metadataListing : Option (List (String × String))
  processedDirWritable : Bool
  now : String

/-- Embeds the `for metadata_file in metadata_dir.glob("*.json")` loop:
parse each file, build its entry, append it, and group its id by species.
A parse failure propagates at once (the loop body has no handler); a
non-object record makes `metadata.get` raise `AttributeError`; an unhashable
`species` value would make the bucket lookup raise `TypeError`. -/
def buildLoop : List CallEntry × List (Jv × List String) → List (String × String) →
    Except String (List CallEntry × List (Jv × List String))
  | acc, [] => Except.ok acc
  | acc, (name, content) :: rest =>
    match json_loads content with
    | Except.error e => Except.error e
    | Except.ok (Jv.obj kvs) =>
      let base_name := stem name
      let entry := build_call_entry base_name kvs
      let sp := dictGet kvs ("species") (Jv.str ("unknown"))
      if jvHashable sp then
        buildLoop (acc.1 ++ [entry], speciesAdd acc.2 sp base_name) rest
      else Except.error ("TypeError: unhashable type")
    | Except.ok _ => Except.error ("AttributeError: object has no attribute get")

/-- Embeds `metadata_dir.glob("*.json")`: the scandir-order listing filtered
to the names matching `*.json`; a missing or unreadable directory (`none`)
yields no entries. -/
def globbedFiles : Option (List (String × String)) → List (String × String)
  | none => []
  | some l => l.filter (fun p => pyEndsWith p.1 (".json"))

/-- Embeds `generate_index(processed_dir)`: glob the metadata directory in
scandir order keeping the names that match `*.json`, run the loop, then open
`<processed_dir>/index.json` for writing (truncating in place) and dump the
catalog.  The returned trace holds the file-system effects performed. -/
def generate_index (inp : BuildInput) : List FsOp × Except String Catalog :=
  match buildLoop ([], []) (globbedFiles inp.metadataListing) with
  | Except.error e => ([], Except.error e)
  | Except.ok (calls, specs) =>
    let cat : Catalog :=
      { version := "1.0", generated := inp.now, species := specs, calls := calls }
    if inp.processedDirWritable then
      ([FsOp.openTrunc ("index.json"), FsOp.writeIndex cat], Except.ok cat)
    else
      ([], Except.error ("IOError: cannot open index.json for writing"))

/-- True when a metadata file's contents pass through one loop iteration
without raising: they parse to a JSON object whose `species` value (after
the default) is hashable. -/
def isObjRecord (content : String) : Bool :=
  match json_loads content with
  | Except.ok (Jv.obj kvs) => jvHashable (dictGet kvs ("species") (Jv.str ("unknown")))
  | _ => false

/-- The ids of the catalog's `calls` sequence, in order. -/
def catalogIds (c : Catalog) : List String :=
  c.calls.map CallEntry.id

/-- The `calls` sequence of a catalog. -/
def catalogCalls (c : Catalog) : List CallEntry :=
  c.calls

/-- The `species` mapping of a catalog. -/
def catalogSpecies (c : Catalog) : List (Jv × List String) :=
  c.species

/-- True when `pat` occurs as a contiguous run inside `hay`. -/
def containsSeg (pat : List Char) : List Char → Bool
  | [] => pat.isEmpty
  | c :: rest => pat.isPrefixOf (c :: rest) || containsSeg pat rest

/-- True for a rename effect. -/
def isRenameOp : FsOp → Bool
  | FsOp.renameFile _ _ => true
  | _ => false

/-- True when the trace contains a rename effect. -/
def hasRenameOp : List FsOp → Bool
  | [] => false
  | op :: rest => isRenameOp op || hasRenameOp rest

/-- Request methods with a `do_` handler in the embedded handlers; `post`
stands for any method without one (the base class answers 501 through
`send_error`). -/
inductive HMethod where
  | get
  | options
  | post

/-- One HTTP request: the method and `self.path`, the raw request target
(it may still carry a query string or fragment). -/
structure HRequest where
  method : HMethod
  rawPath : String

/-- One HTTP response: status code and the headers in emission order.
Bodies and the automatic `Server`/`Date`/`Content-Length` headers are
elided. -/
structure HResponse where
  status : Nat
  headers : List (String × String)

/-- Outcome of handling one request: a response, or an uncaught exception
that aborts the handler before any response bytes are written. -/
inductive ServeOutcome where
  | response (r : HResponse)
  | crashed (msg : String)

/-- The `Cross-Origin-Embedder-Policy` header both handlers send. -/
def coepHeader : String × String :=
  ("Cross-Origin-Embedder-Policy", "require-corp")

/-- The `Cross-Origin-Opener-Policy` header both handlers send. -/
def coopHeader : String × String :=
  ("Cross-Origin-Opener-Policy", "same-origin")

/-- The error-page content type of `BaseHTTPRequestHandler.send_error`. -/
def errorContentType : String :=
  "text/html;charset=utf-8"

/-- Embeds the `Cache-Control` block of `HuntmasterHandler.end_headers`,
keyed on the raw `self.path`. -/
def prodCacheHeaders (rawPath : String) : List (String × String) :=
  if pyEndsWith rawPath (".wasm") || pyEndsWith rawPath (".js") then
    [("Cache-Control", "no-cache, must-revalidate")]
  else if pyEndsWith rawPath (".wav") || pyEndsWith rawPath (".mp3") || pyEndsWith rawPath (".ogg") then
    [("Cache-Control", "public, max-age=3600")]
  else []

/-- Embeds the full header block `HuntmasterHandler.end_headers` appends
after the headers already buffered by the branch. -/
def prodExtraHeaders (rawPath : String) : List (String × String) :=
  [coepHeader, coopHeader,
   ("Access-Control-Allow-Origin", "*"),
   ("Access-Control-Allow-Methods", "GET, POST, PUT, DELETE, OPTIONS"),
   ("Access-Control-Allow-Headers", "Content-Type, Authorization, X-Requested-With"),
   ("Access-Control-Max-Age", "86400"),
   ("X-Content-Type-Options", "nosniff"),
   ("X-Frame-Options", "SAMEORIGIN"),
   ("X-XSS-Protection", "1; mode=block")] ++ prodCacheHeaders rawPath

/-- Embeds the header block `CORSRequestHandler.end_headers` (the dev
server) appends to every response, including its unconditional
`Content-Type: application/wasm`. -/
def devExtraHeaders : List (String × String) :=
  [coepHeader, coopHeader,
   ("Access-Control-Allow-Origin", "*"),
   ("Access-Control-Allow-Methods", "GET, POST, OPTIONS"),
   ("Access-Control-Allow-Headers", "*"),
   ("Content-Type", "application/wasm")]

/-- Embeds `urlparse(self.path).path` (and the query/fragment strip inside
`translate_path`): the target up to the first `?` or `#`. -/
def urlPath (raw : String) : String :=
  String.mk (raw.data.takeWhile (fun c => !(c == '?') && !(c == Char.ofNat 35)))

/-- The platform MIME table consulted by
`SimpleHTTPRequestHandler.guess_type` (extensions map, `mimetypes`, with the
`application/octet-stream` fallback), abstracted as a total map from the
translated path to the guessed type string. -/
def MimeTable : Type :=
  String → String

/-- Embeds the `super().guess_type(path)` call: one string. -/
def superGuessType (tbl : MimeTable) (path : String) : String :=
  tbl path

/-- Embeds `HuntmasterHandler.guess_type`: the body first runs
`mimetype, encoding = super().guess_type(path)`, a two-target iterable
unpacking of a string — a `ValueError` unless that string has exactly two
characters.  Only in that (for real MIME strings unreachable) case does the
override chain run; its pair results would be rendered by `send_header`. -/
def prod_guess_type (tbl : MimeTable) (path : String) : Except String (String × String) :=
  match (superGuessType tbl path).data with
  | [a, b] =>
    let mimetype := String.mk [a]
    let encoding := String.mk [b]
    if pyEndsWith path (".wasm") then Except.ok ("application/wasm", encoding)
    else if pyEndsWith path (".js") then Except.ok ("application/javascript", encoding)
    else if pyEndsWith path (".ts") then Except.ok ("application/typescript", encoding)
    else if pyEndsWith path (".wav") then Except.ok ("audio/wav", encoding)
    else if pyEndsWith path (".mp3") then Except.ok ("audio/mpeg", encoding)
    else if pyEndsWith path (".ogg") then Except.ok ("audio/ogg", encoding)
    else if pyEndsWith path (".json") then Except.ok ("application/json", encoding)
    else Except.ok (mimetype, encoding)
  | _ => Except.error ("ValueError: values to unpack do not match targets")

/-- Embeds `CORSRequestHandler.guess_type` (the dev server): the single
string from the base class, overridden to `application/wasm` for `.wasm`. -/
def dev_guess_type (tbl : MimeTable) (path : String) : String :=
  if pyEndsWith path (".wasm") then ("application/wasm")
  else superGuessType tbl path

/-- Embeds `BaseHTTPRequestHandler.send_error`: status line, `Connection:
close`, the error content type, then `end_headers`, which appends the
handler's extra block. -/
def send_error (extra : List (String × String)) (code : Nat) : HResponse :=
  { status := code
  , headers := [("Connection", "close"), ("Content-Type", errorContentType)] ++ extra }

/-- The static file system served, abstracted as the set of translated
paths at which a regular file exists (directory targets are outside the
modelled request space). -/
def StaticFs : Type :=
  String → Bool

/-- Embeds `SimpleHTTPRequestHandler.send_head` under
`HuntmasterHandler`: `guess_type` runs before the file is opened, so its
`ValueError` escapes on every static request, before any response bytes;
the remaining branches are the trailing-slash 404, the file response with
the guessed `Content-type`, and the missing-file 404. -/
def prodStatic (tbl : MimeTable) (fs : StaticFs) (raw : String) : ServeOutcome :=
  let path := urlPath raw
  match prod_guess_type tbl path with
  | Except.error m => ServeOutcome.crashed m
  | Except.ok ctype =>
    if pyEndsWith path ("/") then ServeOutcome.response (send_error (prodExtraHeaders raw) 404)
    else if fs path then
      ServeOutcome.response
        { status := 200, headers := [("Content-type", ctype.1)] ++ prodExtraHeaders raw }
    else ServeOutcome.response (send_error (prodExtraHeaders raw) 404)

/-- Embeds `HuntmasterHandler` dispatch: `do_OPTIONS` answers 200 through
`end_headers`; `do_GET` routes `/api/` paths (the three known endpoints
return JSON, anything else a 404 through `send_error`), redirects `/` to
`/web/`, and otherwise serves statically; a method without a handler gets a
501 through `send_error`. -/
def prodHandle (tbl : MimeTable) (fs : StaticFs) (req : HRequest) : ServeOutcome :=
  match req.method with
  | HMethod.options =>
    ServeOutcome.response { status := 200, headers := [] ++ prodExtraHeaders req.rawPath }
  | HMethod.post =>
    ServeOutcome.response (send_error (prodExtraHeaders req.rawPath) 501)
  | HMethod.get =>
    let p := urlPath req.rawPath
    if pyStartsWith p ("/api/") then
      if p = "/api/status" then
        ServeOutcome.response
          { status := 200
          , headers := [("Content-Type", "application/json")] ++ prodExtraHeaders req.rawPath }
      else if p = "/api/master-calls" then
        ServeOutcome.response
          { status := 200
          , headers := [("Content-Type", "application/json")] ++ prodExtraHeaders req.rawPath }
      else if p = "/api/test-audio" then
        ServeOutcome.response
          { status := 200
          , headers := [("Content-Type", "application/json")] ++ prodExtraHeaders req.rawPath }
      else ServeOutcome.response (send_error (prodExtraHeaders req.rawPath) 404)
    else if p = "/" then
      ServeOutcome.response
        { status := 302, headers := [("Location", "/web/")] ++ prodExtraHeaders req.rawPath }
    else prodStatic tbl fs req.rawPath

/-- Embeds static serving under `CORSRequestHandler` (the dev server): the
unmodified `send_head` with the dev `guess_type`, every branch closing its
headers through the dev `end_headers`. -/
def devStatic (tbl : MimeTable) (fs : StaticFs) (raw : String) : HResponse :=
  let path := urlPath raw
  if pyEndsWith path ("/") then send_error devExtraHeaders 404
  else if fs path then
    { status := 200, headers := [("Content-type", dev_guess_type tbl path)] ++ devExtraHeaders }
  else send_error devExtraHeaders 404

/-- Embeds `CORSRequestHandler` dispatch: `do_OPTIONS` answers 200, `do_GET`
serves statically, other methods get a 501 through `send_error`. -/
def devHandle (tbl : MimeTable) (fs : StaticFs) (req : HRequest) : HResponse :=
  match req.method with
  | HMethod.options => { status := 200, headers := [] ++ devExtraHeaders }
  | HMethod.post => send_error devExtraHeaders 501
  | HMethod.get => devStatic tbl fs req.rawPath

/-- A MIME table constantly at the base-class fallback value; like every
value the standard library can produce, it is not two characters long. -/
def octetTable : MimeTable :=
  fun _ => "application/octet-stream"

/-- A file system with no files. -/
def emptyFs : StaticFs :=
  fun _ => false

/-- The compiled engine artifact path used as the failing input. -/
def wasmArtifact : String :=
  "/web/dist/huntmaster-engine.wasm"

/-- A file system containing exactly the compiled engine artifact. -/
def fsWithWasm : StaticFs :=
  fun s => s == wasmArtifact

/-- A file system containing exactly `/index.html`. -/
def fsWithIndexHtml : StaticFs :=
  fun s => s == "/index.html"

/-- The parsed CLI arguments of `serve_production.py` (argparse defaults:
port 8000, host `localhost`, no TLS, no certificate or key). -/
structure CliArgs where
  port : Nat
  host : String
  ssl : Bool
  cert : Option String
  key : Option String
  production : Bool

/-- Embeds Python truthiness of an optional string flag: `not cert_file` is
true for `None` and for the empty string. -/
def optFalsy : Option String → Bool
  | none => true
  | some s => s.isEmpty

/-- Observable startup events of `main` in `serve_production.py`, in
order. -/
inductive MainEv where
  | warnWasmMissing
  | bindSocket (host : String) (port : Nat)
  | genSelfSignedCert (certFile : String) (keyFile : String)
  | loadCertChain (certFile : String) (keyFile : String)
  | wrapSocketTLS
  | serveForever
  | exitProcess (code : Nat)

/-- Embeds `create_ssl_context(cert, key)`: when either flag is falsy it
generates a self-signed pair at `server.crt`/`server.key` (overwriting the
local variables, so a supplied-but-unpaired flag is ignored) and loads that
pair; otherwise it loads the supplied pair.  No exit path exists here — an
`openssl` or load failure would raise. -/
def create_ssl_context_events (cert key : Option String) : List MainEv :=
  if optFalsy cert || optFalsy key then
    [MainEv.genSelfSignedCert ("server.crt") "server.key",
     MainEv.loadCertChain ("server.crt") "server.key"]
  else
    [MainEv.loadCertChain (cert.getD ("")) (key.getD (""))]

/-- Embeds `main()` after argument parsing: warn when the WASM bundle is
missing, enter the `TCPServer` context manager (which binds the socket),
then — only with `--ssl` — build the SSL context and wrap the already-bound
socket, and serve. -/
def mainEvents (args : CliArgs) (wasmBuilt : Bool) : List MainEv :=
  (if wasmBuilt then [] else [MainEv.warnWasmMissing])
    ++ [MainEv.bindSocket args.host args.port]
    ++ (if args.ssl then create_ssl_context_events args.cert args.key ++ [MainEv.wrapSocketTLS]
        else [])
    ++ [MainEv.serveForever]

/-- True for a process-exit event. -/
def isExitEv : MainEv → Bool
  | MainEv.exitProcess _ => true
  | _ => false

/-- True when the trace contains a process-exit event. -/
def hasExitEv : List MainEv → Bool
  | [] => false
  | e :: rest => isExitEv e || hasExitEv rest

/-- The CLI invocation `--ssl` with neither `--cert` nor `--key`. -/
def sslNoCertArgs : CliArgs :=
  { port := 8000, host := "localhost", ssl := true, cert := none, key := none
  , production := false }

/-- Contents of the metadata record of the defaults scenario: the empty
JSON object. -/
def emptyObjText : String :=
  "\x7b\x7d"

/-- Contents of the `buck_grunt.json` record of the spec scenario. -/
def buckGruntText : String :=
  "\x7b\"species\": \"deer\", \"callType\": \"grunt\"\x7d"

/-- Builder input for the atomic-write claim: one well-formed record, a
writable processed directory. -/
def c4input : BuildInput :=
  { metadataListing := some [("buck_grunt.json", buckGruntText)]
  , processedDirWritable := true
  , now := "2025-01-01T00:00:00" }

/-- The catalog the `c4input` run produces. -/
def c4catalog : Catalog :=
  { version := "1.0"
  , generated := "2025-01-01T00:00:00"
  , species := [(Jv.str ("deer"), ["buck_grunt"])]
  , calls := [build_call_entry ("buck_grunt") [("species", Jv.str ("deer")), ("callType", Jv.str ("grunt"))]] }

/-- Builder input for the malformed-record claim: a single record whose
contents are the empty document, which `json.load` rejects. -/
def c5input : BuildInput :=
  { metadataListing := some [("bad_record.json", "")]
  , processedDirWritable := true
  , now := "2025-01-01T00:00:00" }

/-- The diagnostic the `c5input` run fails with. -/
def c5diagnostic : String :=
  "Expecting value: line 1 column 1 (char 0)"

/-- Builder input for the enumeration-order claim: two well-formed records
whose scandir order is the reverse of lexicographic order. -/
def c6input : BuildInput :=
  { metadataListing := some [("b.json", emptyObjText), ("a.json", emptyObjText)]
  , processedDirWritable := true
  , now := "2025-01-01T00:00:00" }

/-- Builder input for the missing-directory claim: the metadata directory
does not exist, the processed directory is writable. -/
def c7input : BuildInput :=
  { metadataListing := none
  , processedDirWritable := true
  , now := "2025-01-01T00:00:00" }

/-- The empty catalog the `c7input` run writes. -/
def c7catalog : Catalog :=
  { version := "1.0"
  , generated := "2025-01-01T00:00:00"
  , species := []
  , calls := [] }

lemma splitSlash_ne_nil (cs : List Char) : splitSlash cs ≠ [] := by
  cases cs with
  | nil => simp [splitSlash]
  | cons c cs =>
    simp only [splitSlash]
    cases h : splitSlash cs with
    | nil => simp
    | cons g gs =>
      by_cases hc : c = '/' <;> simp [hc]

lemma splitSlash_cons_slash (l : List Char) : splitSlash ('/' :: l) = [] :: splitSlash l := by
  simp only [splitSlash]
  cases h : splitSlash l with
  | nil => exact absurd h (splitSlash_ne_nil l)
  | cons g gs => simp

lemma splitSlash_cons_ne (c : Char) (l : List Char) (h : ¬ c = '/') :
    splitSlash (c :: l) = (c :: (splitSlash l).headI) :: (splitSlash l).tail := by
  simp only [splitSlash]
  cases hl : splitSlash l with
  | nil => exact absurd hl (splitSlash_ne_nil l)
  | cons g gs => simp [h]

lemma splitSlash_append_noslash (cs ds : List Char) (h : '/' ∉ cs) :
    splitSlash (cs ++ ds) = (cs ++ (splitSlash ds).headI) :: (splitSlash ds).tail := by
  induction cs with
  | nil =>
    simp only [List.nil_append]
    cases hd : splitSlash ds with
    | nil => exact absurd hd (splitSlash_ne_nil ds)
    | cons g gs => simp
  | cons c cs ih =>
    have hc : ¬ c = '/' := fun hh => h (by simp [hh])
    have h2 : '/' ∉ cs := fun hh => h (List.mem_cons_of_mem _ hh)
    rw [List.cons_append, splitSlash_cons_ne c (cs ++ ds) hc, ih h2]
    simp

lemma splitSlash_seg_slash (seg : List Char) (hseg : '/' ∉ seg) (l : List Char) :
    splitSlash (seg ++ '/' :: l) = seg :: splitSlash l := by
  rw [splitSlash_append_noslash seg ('/' :: l) hseg, splitSlash_cons_slash]
  simp

lemma resolveSegs_push (d : Nat) (g : List Char) (gs : List (List Char)) (h : 2 < g.length) :
    resolveSegs d (g :: gs) = resolveSegs (d + 1) gs := by
  have h1 : ¬ g = ([] : List Char) := by intro hh; subst hh; simp at h
  have h2 : ¬ g = ['.'] := by intro hh; subst hh; simp at h
  have h3 : ¬ g = ['.', '.'] := by intro hh; subst hh; simp at h
  simp [resolveSegs, h1, h2, h3]

lemma staysInRoot_dir_entry (first : Char) (seg suf : List Char) (id : String)
    (hseg : '/' ∉ (first :: seg))
    (hsuf : splitSlash suf = [suf])
    (hpre : 2 < (first :: seg).length)
    (hlen : 2 < suf.length)
    (hid : '/' ∉ id.data) :
    staysInRoot (String.mk ((first :: seg) ++ '/' :: (id.data ++ suf))) = true := by
  have hfirst : ¬ first = '/' := fun hh => hseg (by simp [hh])
  have hdata : (String.mk ((first :: seg) ++ '/' :: (id.data ++ suf))).data
      = (first :: seg) ++ '/' :: (id.data ++ suf) := rfl
  rw [staysInRoot, hdata]
  have hhead : ((first :: seg) ++ '/' :: (id.data ++ suf)).head? = some first := rfl
  rw [hhead, splitSlash_seg_slash (first :: seg) hseg,
    splitSlash_append_noslash id.data suf hid, hsuf]
  simp only [List.headI, List.tail_cons]
  rw [resolveSegs_push 0 (first :: seg) _ hpre]
  rw [resolveSegs_push 1 (id.data ++ suf) [] (by rw [List.length_append]; omega)]
  simp [hfirst, resolveSegs]

lemma staysInRoot_dotdot_lead (l : List Char) :
    staysInRoot (String.mk (['.', '.'] ++ '/' :: l)) = false := by
  have hdata : (String.mk (['.', '.'] ++ '/' :: l)).data = ['.', '.'] ++ '/' :: l := rfl
  rw [staysInRoot, hdata]
  have hhead : (['.', '.'] ++ '/' :: l).head? = some '.' := rfl
  rw [hhead, splitSlash_seg_slash ['.', '.'] (by decide) l]
  simp [resolveSegs]

/-- C1 counterexample: the claim that every path in a `CallEntry.files` map
resolves inside the asset root, and that a traversal id is rejected or
normalized, is false on the code: the `audio` path of the benign id
`buck_grunt` is `../master_calls/buck_grunt.wav`, which resolves outside
the asset root, and the path construction applied to the crafted id
`../../etc/passwd` likewise yields a `metadata` path that escapes — there
is no rejection or normalization step. -/
theorem C1_counterexample :
    staysInRoot (audioFilePath ("buck_grunt")) = false
    ∧ (callFiles ("buck_grunt")).lookup ("audio") = some (audioFilePath ("buck_grunt"))
    ∧ staysInRoot (metadataFilePath ("../../etc/passwd")) = false := by
  refine ⟨by decide, rfl, by decide⟩

/-- C1 amended: the builder performs no rejection or normalization of ids,
but every id is a glob-derived filename stem and so contains no path
separator; under that invariant the `mfc`, `waveform` and `metadata` paths
always resolve inside the asset root, while the `audio` path is built with
a literal `../` prefix and always resolves outside the asset root, in the
sibling `master_calls` directory. -/
theorem C1_amended (id : String) (hid : '/' ∉ id.data) :
    staysInRoot (mfcFilePath id) = true
    ∧ staysInRoot (waveformFilePath id) = true
    ∧ staysInRoot (metadataFilePath id) = true
    ∧ staysInRoot (audioFilePath id) = false := by
  refine ⟨?_, ?_, ?_, ?_⟩
  · have h : mfcFilePath id
        = String.mk ((['m', 'f', 'c'] : List Char) ++ '/' :: (id.data ++ ['.', 'm', 'f', 'c'])) := rfl
    rw [h]
    exact staysInRoot_dir_entry 'm' ['f', 'c'] ['.', 'm', 'f', 'c'] id (by decide) (by decide)
      (by decide) (by decide) hid
  · have h : waveformFilePath id
        = String.mk ((['w', 'a', 'v', 'e', 'f', 'o', 'r', 'm', 's'] : List Char)
            ++ '/' :: (id.data ++ ['.', 'j', 's', 'o', 'n'])) := rfl
    rw [h]
    exact staysInRoot_dir_entry 'w' ['a', 'v', 'e', 'f', 'o', 'r', 'm', 's']
      ['.', 'j', 's', 'o', 'n'] id (by decide) (by decide) (by decide) (by decide) hid
  · have h : metadataFilePath id
        = String.mk ((['m', 'e', 't', 'a', 'd', 'a', 't', 'a'] : List Char)
            ++ '/' :: (id.data ++ ['.', 'j', 's', 'o', 'n'])) := rfl
    rw [h]
    exact staysInRoot_dir_entry 'm' ['e', 't', 'a', 'd', 'a', 't', 'a']
      ['.', 'j', 's', 'o', 'n'] id (by decide) (by decide) (by decide) (by decide) hid
  · have h : audioFilePath id
        = String.mk ((['.', '.'] : List Char)
            ++ '/' :: ("master_calls/" ++ id ++ ".wav").data) := rfl
    rw [h]
    exact staysInRoot_dotdot_lead _

/-- C1 witness: the amended statement evaluated at the id `buck_grunt`. -/
theorem C1_amended_witness :
    staysInRoot (mfcFilePath ("buck_grunt")) = true
    ∧ staysInRoot (waveformFilePath ("buck_grunt")) = true
    ∧ staysInRoot (metadataFilePath ("buck_grunt")) = true
    ∧ staysInRoot (audioFilePath ("buck_grunt")) = false :=
  C1_amended ("buck_grunt") (by decide)

lemma coep_mem_prodExtra (raw : String) : coepHeader ∈ prodExtraHeaders raw := by
  simp [prodExtraHeaders]

lemma coop_mem_prodExtra (raw : String) : coopHeader ∈ prodExtraHeaders raw := by
  simp [prodExtraHeaders]

/-- C2: every response either server emits — static file, API JSON, OPTIONS,
redirect, or error — carries `Cross-Origin-Embedder-Policy: require-corp`
and `Cross-Origin-Opener-Policy: same-origin`: both `end_headers` overrides
append the pair unconditionally, and every response-emitting branch closes
its headers through `end_headers`. -/
theorem C2_isolation_headers :
    (∀ (tbl : MimeTable) (fs : StaticFs) (req : HRequest) (r : HResponse),
        prodHandle tbl fs req = ServeOutcome.response r →
        coepHeader ∈ r.headers ∧ coopHeader ∈ r.headers)
    ∧ (∀ (tbl : MimeTable) (fs : StaticFs) (req : HRequest),
        coepHeader ∈ (devHandle tbl fs req).headers
        ∧ coopHeader ∈ (devHandle tbl fs req).headers) := by
  constructor
  · intro tbl fs req r h
    obtain ⟨m, raw⟩ := req
    cases m with
    | options =>
      simp only [prodHandle] at h
      cases h
      exact ⟨List.mem_append_right _ (coep_mem_prodExtra raw),
        List.mem_append_right _ (coop_mem_prodExtra raw)⟩
    | post =>
      simp only [prodHandle, send_error] at h
      cases h
      exact ⟨List.mem_append_right _ (coep_mem_prodExtra raw),
        List.mem_append_right _ (coop_mem_prodExtra raw)⟩
    | get =>
      simp only [prodHandle, prodStatic, send_error] at h
      repeat' split at h
      all_goals
        first
          | (cases h; exact ⟨by simp [prodExtraHeaders], by simp [prodExtraHeaders]⟩)
          | exact (ServeOutcome.noConfusion h)
  · intro tbl fs req
    obtain ⟨m, raw⟩ := req
    cases m with
    | options => constructor <;> simp [devHandle, devExtraHeaders]
    | post => constructor <;> simp [devHandle, send_error, devExtraHeaders]
    | get =>
      simp only [devHandle, devStatic, send_error]
      constructor <;>
        (repeat' split) <;> simp [devExtraHeaders]

/-- C2 witness: the production handler's OPTIONS response on `/x` carries
both isolation headers. -/
theorem C2_isolation_headers_witness :
    coepHeader ∈ (HResponse.mk 200 ([] ++ prodExtraHeaders ("/x"))).headers
    ∧ coopHeader ∈ (HResponse.mk 200 ([] ++ prodExtraHeaders ("/x"))).headers :=
  C2_isolation_headers.1 octetTable emptyFs ⟨HMethod.options, ("/x")⟩
    (HResponse.mk 200 ([] ++ prodExtraHeaders ("/x"))) rfl

/-- C3: the claimed MIME contract is the evident intent of the override
chain, but the code cannot deliver it: `guess_type` unpacks the single
string returned by `SimpleHTTPRequestHandler.guess_type` into two targets,
raising `ValueError` on every static request — at the failing input, a GET
for the existing `.wasm` artifact, the handler crashes and no response (and
no `Content-Type`) is produced at all. -/
theorem C3_guess_type_valueerror :
    prodHandle octetTable fsWithWasm ⟨HMethod.get, wasmArtifact⟩
      = ServeOutcome.crashed ("ValueError: values to unpack do not match targets")
    ∧ prod_guess_type octetTable wasmArtifact
      = Except.error ("ValueError: values to unpack do not match targets") :=
  ⟨rfl, rfl⟩

/-- C4 counterexample: the persistence step of a successful build opens
`index.json` directly for writing and performs no rename, so the claimed
temporary-file-then-rename replacement is absent. -/
theorem C4_counterexample :
    hasRenameOp (generate_index c4input).1 = false
    ∧ (generate_index c4input).1.head? = some (FsOp.openTrunc ("index.json")) :=
  ⟨rfl, rfl⟩

/-- C4 amended: every successful build persists the catalog as a single
JSON document at the fixed path `index.json` inside the asset root, but by
opening that path directly (truncating in place) and writing — no temporary
file and no rename are involved, so a concurrent reader can observe a
half-written catalog. -/
theorem C4_amended (inp : BuildInput) (cat : Catalog)
    (h : (generate_index inp).2 = Except.ok cat) :
    (generate_index inp).1 = [FsOp.openTrunc ("index.json"), FsOp.writeIndex cat] := by
  simp only [generate_index] at h ⊢
  cases hb : buildLoop ([], []) (globbedFiles inp.metadataListing) with
  | error e => rw [hb] at h; simp at h
  | ok pr =>
    obtain ⟨cs, sp⟩ := pr
    rw [hb] at h
    cases hw : inp.processedDirWritable with
    | true =>
      have hc : ({ version := "1.0", generated := inp.now, species := sp, calls := cs } : Catalog)
          = cat := by simpa [hw] using h
      simp [hw, hc]
    | false => simp [hw] at h

/-- C4 witness: the amended statement evaluated at the one-record build. -/
theorem C4_amended_witness :
    (generate_index c4input).1 = [FsOp.openTrunc ("index.json"), FsOp.writeIndex c4catalog] :=
  C4_amended c4input c4catalog rfl

lemma buildLoop_first_error (name content : String) (rest2 : List (String × String)) (e : String)
    (hbad : json_loads content = Except.error e) :
    ∀ (good : List (String × String)) (acc : List CallEntry × List (Jv × List String)),
      (∀ p ∈ good, isObjRecord p.2 = true) →
      buildLoop acc (good ++ (name, content) :: rest2) = Except.error e := by
  intro good
  induction good with
  | nil =>
    intro acc _
    simp only [List.nil_append, buildLoop, hbad]
  | cons p good ih =>
    intro acc hgood
    obtain ⟨pname, pcontent⟩ := p
    have hp : isObjRecord pcontent = true := hgood (pname, pcontent) (by simp)
    have hrest : ∀ q ∈ good, isObjRecord q.2 = true := fun q hq => hgood q (by simp [hq])
    simp only [isObjRecord] at hp
    cases hjl : json_loads pcontent with
    | error e2 => rw [hjl] at hp; simp at hp
    | ok v =>
      cases v with
      | obj kvs =>
        rw [hjl] at hp
        simp only [] at hp
        simp only [List.cons_append, buildLoop, hjl]
        rw [hp]
        simp only [if_true]
        exact ih _ hrest
      | null => rw [hjl] at hp; simp at hp
      | bool b => rw [hjl] at hp; simp at hp
      | num n => rw [hjl] at hp; simp at hp
      | str s => rw [hjl] at hp; simp at hp
      | arr xs => rw [hjl] at hp; simp at hp

/-- C5 counterexample: on a metadata directory holding one malformed record
`bad_record.json`, the build fails and writes nothing — but the diagnostic
is the parser's message, computed from the document text alone, and does
not name the offending file. -/
theorem C5_counterexample :
    generate_index c5input = ([], Except.error c5diagnostic)
    ∧ containsSeg ("bad_record").data (c5diagnostic).data = false :=
  ⟨rfl, rfl⟩

/-- C5 amended: if any globbed metadata file is malformed (the records
before it in scandir order being well formed), the whole build fails with
the parser's diagnostic — which carries only line/column/offset, not the
offending filename — and no catalog file, partial or otherwise, is
written. -/
theorem C5_amended (pre : List (String × String)) (name content : String)
    (rest : List (String × String)) (w : Bool) (t : String) (e : String)
    (hpre : ∀ p ∈ pre, pyEndsWith p.1 (".json") = true → isObjRecord p.2 = true)
    (hname : pyEndsWith name (".json") = true)
    (hbad : json_loads content = Except.error e) :
    generate_index ⟨some (pre ++ (name, content) :: rest), w, t⟩ = ([], Except.error e) := by
  have hfilter : globbedFiles (some (pre ++ (name, content) :: rest))
      = (pre.filter (fun p => pyEndsWith p.1 (".json")))
        ++ (name, content) :: (rest.filter (fun p => pyEndsWith p.1 (".json"))) := by
    simp only [globbedFiles, List.filter_append, List.filter_cons]
    simp [hname]
  have hgood : ∀ p ∈ pre.filter (fun p => pyEndsWith p.1 (".json")), isObjRecord p.2 = true := by
    intro p hp
    rw [List.mem_filter] at hp
    exact hpre p hp.1 hp.2
  have hbl := buildLoop_first_error name content
    (rest.filter (fun p => pyEndsWith p.1 (".json"))) e hbad
    (pre.filter (fun p => pyEndsWith p.1 (".json"))) ([], []) hgood
  simp only [generate_index, hfilter, hbl]

/-- C5 witness: the amended statement evaluated at the single malformed
record `bad_record.json` with empty contents. -/
theorem C5_amended_witness :
    generate_index ⟨some ([] ++ ("bad_record.json", "") :: []), true, "2025-01-01T00:00:00"⟩
      = ([], Except.error c5diagnostic) :=
  C5_amended [] ("bad_record.json") ("") [] true ("2025-01-01T00:00:00") c5diagnostic
    (by simp) (by decide) rfl

/-- C6 counterexample: the builder enumerates metadata files in directory
(scandir) order and applies no sort, so with a listing `b.json`, `a.json`
the `calls` sequence comes out as `[b, a]`, not in lexicographic order. -/
theorem C6_counterexample :
    (generate_index c6input).2.map catalogIds = Except.ok (["b", "a"])
    ∧ (["b", "a"] : List String) ≠ (["a", "b"] : List String) :=
  ⟨rfl, by decide⟩

/-- C6 amended: two builds over the same directory listing (same scandir
order and contents) agree on `calls`, `species` and `version` whatever the
two timestamps are — the build is deterministic in its inputs — but the
enumeration order is the directory's, which the code never sorts, so it is
not guaranteed lexicographic. -/
theorem C6_amended (md : Option (List (String × String))) (w : Bool) (t1 t2 : String) :
    (generate_index ⟨md, w, t1⟩).2.map catalogCalls
      = (generate_index ⟨md, w, t2⟩).2.map catalogCalls
    ∧ (generate_index ⟨md, w, t1⟩).2.map catalogSpecies
      = (generate_index ⟨md, w, t2⟩).2.map catalogSpecies
    ∧ (generate_index ⟨md, w, t1⟩).2.map Catalog.version
      = (generate_index ⟨md, w, t2⟩).2.map Catalog.version := by
  simp only [generate_index]
  cases hb : buildLoop ([], []) (globbedFiles md) with
  | error e => simp
  | ok pr =>
    obtain ⟨cs, sp⟩ := pr
    cases w <;> simp [Except.map, catalogCalls, catalogSpecies]

/-- C7 counterexample: with the metadata directory missing (or unreadable)
and the processed directory writable, the build does not fail with
`IOError` — `pathlib.Path.glob` yields no entries, and the build succeeds,
writing an empty catalog. -/
theorem C7_counterexample :
    generate_index c7input
      = ([FsOp.openTrunc ("index.json"), FsOp.writeIndex c7catalog], Except.ok c7catalog) :=
  rfl

/-- C7 amended: the build is a function of the directory listing/contents,
the writability of the processed directory, and the clock; a missing or
unreadable metadata directory is silently treated as empty and the build
succeeds with an empty catalog, while an `IOError`-class failure occurs
exactly when `index.json` itself cannot be opened for writing. -/
theorem C7_amended :
    (∀ t : String, generate_index ⟨none, true, t⟩
        = ([FsOp.openTrunc ("index.json"), FsOp.writeIndex ⟨"1.0", t, [], []⟩],
           Except.ok ⟨"1.0", t, [], []⟩))
    ∧ (∀ t : String, generate_index ⟨none, false, t⟩
        = ([], Except.error ("IOError: cannot open index.json for writing"))) :=
  ⟨fun _ => rfl, fun _ => rfl⟩

/-- C8 counterexample: invoking the server with `--ssl` and neither
certificate nor key does not exit — the socket is bound first, then a
self-signed pair is generated and loaded, and the server serves. -/
theorem C8_counterexample :
    hasExitEv (mainEvents sslNoCertArgs true) = false
    ∧ mainEvents sslNoCertArgs true
      = [MainEv.bindSocket ("localhost") 8000,
         MainEv.genSelfSignedCert ("server.crt") ("server.key"),
         MainEv.loadCertChain ("server.crt") ("server.key"),
         MainEv.wrapSocketTLS, MainEv.serveForever] :=
  ⟨rfl, rfl⟩

/-- C8 amended: enabling TLS without both a certificate and a key never
exits: `main` binds the listening socket first, and only then does
`create_ssl_context` generate a self-signed `server.crt`/`server.key` pair,
load it, wrap the socket and serve; no exit event occurs (an `openssl` or
load failure would raise, after binding). -/
theorem C8_amended (args : CliArgs) (wasmBuilt : Bool)
    (hssl : args.ssl = true)
    (hflags : (optFalsy args.cert || optFalsy args.key) = true) :
    hasExitEv (mainEvents args wasmBuilt) = false
    ∧ mainEvents args wasmBuilt
      = (if wasmBuilt then [] else [MainEv.warnWasmMissing])
        ++ [MainEv.bindSocket args.host args.port,
            MainEv.genSelfSignedCert ("server.crt") ("server.key"),
            MainEv.loadCertChain ("server.crt") ("server.key"),
            MainEv.wrapSocketTLS, MainEv.serveForever] := by
  constructor
  · cases wasmBuilt <;>
      simp [mainEvents, create_ssl_context_events, hssl, hflags, hasExitEv, isExitEv]
  · cases wasmBuilt <;>
      simp [mainEvents, create_ssl_context_events, hssl, hflags]

/-- C8 witness: the amended statement evaluated at `--ssl` with no
certificate and no key on the default host and port. -/
theorem C8_amended_witness :
    hasExitEv (mainEvents sslNoCertArgs true) = false
    ∧ mainEvents sslNoCertArgs true
      = (if true then [] else [MainEv.warnWasmMissing])
        ++ [MainEv.bindSocket sslNoCertArgs.host sslNoCertArgs.port,
            MainEv.genSelfSignedCert ("server.crt") ("server.key"),
            MainEv.loadCertChain ("server.crt") ("server.key"),
            MainEv.wrapSocketTLS, MainEv.serveForever] :=
  C8_amended sslNoCertArgs true rfl rfl

/-- C9: a metadata record missing `species`, `callType`, `season`,
`difficulty` or `duration` yields a `CallEntry` with the defaults
`"unknown"`, `"unknown"`, `"all"`, `1`, `0` respectively, and the entry's
`id` is the source filename stem. -/
theorem C9_default_substitution (fname : String) (md : List (String × Jv))
    (h1 : md.lookup ("species") = none) (h2 : md.lookup ("callType") = none)
    (h3 : md.lookup ("season") = none) (h4 : md.lookup ("difficulty") = none)
    (h5 : md.lookup ("duration") = none) :
    (build_call_entry (stem fname) md).id = stem fname
    ∧ (build_call_entry (stem fname) md).species = Jv.str ("unknown")
    ∧ (build_call_entry (stem fname) md).callType = Jv.str ("unknown")
    ∧ (build_call_entry (stem fname) md).season = Jv.str ("all")
    ∧ (build_call_entry (stem fname) md).difficulty = Jv.num 1
    ∧ (build_call_entry (stem fname) md).duration = Jv.num 0 := by
  simp [build_call_entry, dictGet, h1, h2, h3, h4, h5]

/-- C9 witness: the defaults theorem evaluated at `doe_bleat.json` with the
empty record. -/
theorem C9_default_substitution_witness :
    (build_call_entry (stem ("doe_bleat.json")) []).id = stem ("doe_bleat.json")
    ∧ (build_call_entry (stem ("doe_bleat.json")) []).species = Jv.str ("unknown")
    ∧ (build_call_entry (stem ("doe_bleat.json")) []).callType = Jv.str ("unknown")
    ∧ (build_call_entry (stem ("doe_bleat.json")) []).season = Jv.str ("all")
    ∧ (build_call_entry (stem ("doe_bleat.json")) []).difficulty = Jv.num 1
    ∧ (build_call_entry (stem ("doe_bleat.json")) []).duration = Jv.num 0 :=
  C9_default_substitution ("doe_bleat.json") [] rfl rfl rfl rfl rfl

/-- C10: every response of the development server carries the
`Content-Type: application/wasm` header its `end_headers` hook appends —
for any path and method, OPTIONS preflights and errors included — and on an
existing static file the response holds it in addition to the
`Content-type` the base file handler buffered for the body. -/
theorem C10_dev_wasm_header :
    (∀ (tbl : MimeTable) (fs : StaticFs) (req : HRequest),
        (("Content-Type", "application/wasm") : String × String)
          ∈ (devHandle tbl fs req).headers)
    ∧ (∀ (tbl : MimeTable) (fs : StaticFs) (p : String),
        fs (urlPath p) = true → pyEndsWith (urlPath p) ("/") = false →
        (devHandle tbl fs ⟨HMethod.get, p⟩).headers
          = [("Content-type", dev_guess_type tbl (urlPath p))] ++ devExtraHeaders) := by
  constructor
  · intro tbl fs req
    obtain ⟨m, raw⟩ := req
    cases m with
    | options => simp [devHandle, devExtraHeaders]
    | post => simp [devHandle, send_error, devExtraHeaders]
    | get =>
      simp only [devHandle, devStatic, send_error]
      (repeat' split) <;> simp [devExtraHeaders]
  · intro tbl fs p hfs hslash
    simp [devHandle, devStatic, hfs, hslash]

/-- C10 witness: the second part evaluated at an existing `/index.html`. -/
theorem C10_dev_wasm_header_witness :
    (devHandle octetTable fsWithIndexHtml ⟨HMethod.get, ("/index.html")⟩).headers
      = [("Content-type", dev_guess_type octetTable (urlPath ("/index.html")))]
        ++ devExtraHeaders :=
  C10_dev_wasm_header.2 octetTable fsWithIndexHtml ("/index.html") (by decide) (by decide)
